import Mathlib

/-!
Shallow embedding of the ai_portfolio_manager repository core:
the portfolio ledger (`src/modules/portfolio_manager.py`, class `Portfolio`)
and the order lifecycle manager (`src/modules/order_manager.py`, class
`OrderManager`).

Modelling conventions:
* Python floats are modelled as exact rationals (`ℚ`); all arithmetic in the
  source is plain `+ - * /` and comparisons, so the embedding is the exact
  version of the float computation.
* Python dicts with a fixed key set (a holding, the portfolio document, an
  order result) are modelled as structures.  A key that the source reads with
  `.get(key, 0)` and that may be absent (e.g. `allocation` on a freshly
  created holding) is modelled as a field initialized to the `.get` default.
* The `holdings` dict (symbol → holding) is modelled as an association list
  in insertion order, with unique keys, matching Python dict semantics.
* I/O (loading YAML, `save_portfolio`, logging, file persistence) is dropped:
  persistence always "succeeds" and is the identity on the in-memory state.
  The price fetcher is passed in as data: `none` models "no price fetcher
  available / fetch failed falsy", `some ps` models a fetched
  `get_latest_prices()` dict mapping symbol to its `price` value
  (`ps = []` models a falsy/empty fetch result).
-/

namespace AIPortfolio

/-- A holding record, mirroring the dict created at
`portfolio_manager.py:268-279` (buy branch of `record_trade`).  The
`allocation` key is added later by `calculate_allocations`; the source reads
it with `.get("allocation", 0)`, so it is modelled as a field that starts
at `0`. -/
structure Holding where
  symbol : String
  quantity : ℚ
  cost_basis : ℚ
  average_price : ℚ
  current_price : ℚ
  current_value : ℚ
  profit_loss : ℚ
  profit_loss_percent : ℚ
  allocation : ℚ
  first_purchased : String
  last_updated : String
deriving DecidableEq, Repr

/-- A trade record, mirroring the dict built at `portfolio_manager.py:337-344`. -/
structure TradeRecord where
  timestamp : String
  symbol : String
  action : String
  quantity : ℚ
  price : ℚ
  value : ℚ
deriving DecidableEq, Repr

/-- The per-symbol slice of a snapshot, `portfolio_manager.py:373-377`. -/
structure SnapHolding where
  quantity : ℚ
  current_value : ℚ
  allocation : ℚ
deriving DecidableEq, Repr

/-- A history snapshot, mirroring `_record_portfolio_snapshot`
(`portfolio_manager.py:360-382`). -/
structure Snapshot where
  date : String
  total_value : ℚ
  cash : ℚ
  holdings : List (String × SnapHolding)
deriving DecidableEq, Repr

/-- The portfolio document `self.holdings`, mirroring the dict returned by
`_initialize_portfolio` (`portfolio_manager.py:76-93`) plus the `trades` list
that `record_trade` creates on first use (modelled as always present,
starting empty). -/
structure PortfolioState where
  created_at : String
  updated_at : String
  initial_capital : ℚ
  cash : ℚ
  total_value : ℚ
  holdings : List (String × Holding)
  trades : List TradeRecord
  history : List Snapshot
deriving DecidableEq, Repr

/-- Dict entry lookup on the holdings association list (Python
`holdings[symbol]` / `symbol in holdings`), returning the whole entry. -/
def findE : List (String × Holding) → String → Option (String × Holding)
  | [], _ => none
  | e :: t, s => if e.1 = s then some e else findE t s

/-- Dict value lookup (Python `holdings.get(symbol)`). -/
def lookupH (hs : List (String × Holding)) (s : String) : Option Holding :=
  (findE hs s).map Prod.snd

/-- Dict in-place update `holdings[symbol] = h` for a key already present. -/
def setH : List (String × Holding) → String → Holding → List (String × Holding)
  | [], _, _ => []
  | e :: t, s, h => if e.1 = s then (s, h) :: t else e :: setH t s h

/-- Dict deletion `del holdings[symbol]` (`portfolio_manager.py:325`). -/
def eraseH : List (String × Holding) → String → List (String × Holding)
  | [], _ => []
  | e :: t, s => if e.1 = s then t else e :: eraseH t s

/-- Lookup in the fetched price dict (`latest_prices.get(symbol)` combined
with `price_data.get("price", 0)`, `portfolio_manager.py:135,140`): a missing
entry models missing `price_data`; an entry with value `0` models price data
whose `price` field is `0` or absent. -/
def lookupPrice : List (String × ℚ) → String → Option ℚ
  | [], _ => none
  | e :: t, s => if e.1 = s then some e.2 else lookupPrice t s

/-- Sum of the `current_value` fields over the holdings map. -/
def sumCV (hs : List (String × Holding)) : ℚ :=
  (hs.map (fun e => e.2.current_value)).sum

/-- The fresh portfolio document of `_initialize_portfolio`
(`portfolio_manager.py:76-93`): creation date stamps, cash and total_value
equal to the configured initial capital, empty holdings, and a single
initial history snapshot. -/
def initializePortfolio (initial_capital : ℚ) (current_date : String) :
    PortfolioState :=
  { created_at := current_date
    updated_at := current_date
    initial_capital := initial_capital
    cash := initial_capital
    total_value := initial_capital
    holdings := []
    trades := []
    history := [{ date := current_date, total_value := initial_capital,
                  cash := initial_capital, holdings := [] }] }

/-- The in-loop holding refresh of `update_prices`
(`portfolio_manager.py:140-156`): recompute current value at the fetched
price and the profit/loss versus cost basis (percent only when
`cost_basis > 0`), and stamp `last_updated`. -/
def updateHolding (now : String) (price : ℚ) (h : Holding) : Holding :=
  let current_value := h.quantity * price
  let profit_loss := current_value - h.cost_basis
  let profit_loss_percent :=
    if h.cost_basis > 0 then profit_loss / h.cost_basis * 100 else 0
  { h with current_price := price
           current_value := current_value
           profit_loss := profit_loss
           profit_loss_percent := profit_loss_percent
           last_updated := now }

/-- One iteration of the `update_prices` loop over holdings
(`portfolio_manager.py:133-159`): the accumulator carries the running
`total_value` and the holdings processed so far.  A symbol with no price
entry, or with a falsy (zero) price, is skipped: the holding is kept
unchanged and nothing is added to the running total. -/
def upStep (now : String) (ps : List (String × ℚ))
    (acc : ℚ × List (String × Holding)) (e : String × Holding) :
    ℚ × List (String × Holding) :=
  match lookupPrice ps e.1 with
  | none => (acc.1, acc.2 ++ [e])
  | some p =>
    if p = 0 then (acc.1, acc.2 ++ [e])
    else
      let h := updateHolding now p e.2
      (acc.1 + h.current_value, acc.2 ++ [(e.1, h)])

/-- The effect of one `update_prices` loop iteration on the holding entry
alone (specification companion of `upStep`, used to state what the fold does
to the holdings list). -/
def upEntry (now : String) (ps : List (String × ℚ)) (e : String × Holding) :
    String × Holding :=
  match lookupPrice ps e.1 with
  | none => e
  | some p => if p = 0 then e else (e.1, updateHolding now p e.2)

/-- The allocation update performed on each holding by
`calculate_allocations` (`portfolio_manager.py:192-197`). -/
def allocEntry (total : ℚ) (e : String × Holding) : String × Holding :=
  (e.1, { e.2 with allocation := e.2.current_value / total })

/-- The state mutation of `calculate_allocations`
(`portfolio_manager.py:173-202`): when `total_value ≤ 0` it warns and
returns without touching any holding; otherwise it writes
`allocation = current_value / total_value` into every holding.  (The
returned allocations dict is ignored by `update_prices`, so only the
mutation is modelled.) -/
def calculate_allocations (st : PortfolioState) : PortfolioState :=
  if st.total_value ≤ 0 then st
  else { st with holdings := st.holdings.map (allocEntry st.total_value) }

/-- The `update_prices` method (`portfolio_manager.py:107-171`).  `prices`
is the available price fetcher's `get_latest_prices()` result: `none` when
no price fetcher is available, `some ps` for a fetch that returned `ps`
(`ps = []` is the falsy fetch result).  On failure it returns `False`
without touching the state.  Otherwise it rebuilds `total_value` starting
from cash, adding the refreshed `current_value` of exactly those holdings
whose symbol has a nonzero price entry, stamps `updated_at`, recomputes
allocations, persists (a no-op here) and returns `True`. -/
def update_prices (now : String) (prices : Option (List (String × ℚ)))
    (st : PortfolioState) : Bool × PortfolioState :=
  match prices with
  | none => (false, st)
  | some ps =>
    if ps.isEmpty then (false, st)
    else
      let r := st.holdings.foldl (upStep now ps) (st.cash, [])
      let st1 := { st with holdings := r.2, total_value := r.1,
                           updated_at := now }
      (true, calculate_allocations st1)

/-- The holding created on a first buy of a symbol
(`portfolio_manager.py:268-279`). -/
def mkHolding (symbol : String) (quantity price trade_value : ℚ)
    (timestamp : String) : Holding :=
  { symbol := symbol
    quantity := quantity
    cost_basis := trade_value
    average_price := price
    current_price := price
    current_value := trade_value
    profit_loss := 0
    profit_loss_percent := 0
    allocation := 0
    first_purchased := timestamp
    last_updated := timestamp }

/-- The holdings-map effect of a successful buy
(`portfolio_manager.py:266-296`): create the holding on first purchase,
otherwise accumulate quantity and cost basis, recompute the weighted average
price (guarded by `new_quantity > 0`), and mark the current price/value at
the trade price. -/
def buyUpdate (hs : List (String × Holding)) (symbol : String)
    (quantity price trade_value : ℚ) (timestamp : String) :
    List (String × Holding) :=
  match lookupH hs symbol with
  | none => hs ++ [(symbol, mkHolding symbol quantity price trade_value timestamp)]
  | some h =>
    let new_quantity := h.quantity + quantity
    let new_cost_basis := h.cost_basis + trade_value
    setH hs symbol
      { h with quantity := new_quantity
               cost_basis := new_cost_basis
               average_price :=
                 if new_quantity > 0 then new_cost_basis / new_quantity else 0
               current_price := price
               current_value := new_quantity * price
               last_updated := timestamp }

/-- The holdings-map effect of a successful sell
(`portfolio_manager.py:320-330`): remove the holding when the remaining
quantity is `≤ 0`, otherwise keep it with the reduced quantity and the
current value recomputed at the sale price. -/
def sellUpdate (hs : List (String × Holding)) (symbol : String) (h : Holding)
    (quantity price : ℚ) (timestamp : String) : List (String × Holding) :=
  let new_quantity := h.quantity - quantity
  if new_quantity ≤ 0 then eraseH hs symbol
  else
    setH hs symbol
      { h with quantity := new_quantity
               current_value := new_quantity * price
               last_updated := timestamp }

/-- The realized profit/loss computed (and logged, not stored) by the sell
branch (`portfolio_manager.py:313-314`). -/
def realized_pl (h : Holding) (price quantity : ℚ) : ℚ :=
  (price - h.average_price) * quantity

/-- Python `str.lower()` as applied to the `action` argument
(`portfolio_manager.py:255,298`); the embedding maps `Char.toLower` over the
characters, which agrees with CPython on the ASCII action strings involved. -/
def pyLower (s : String) : String := ⟨s.data.map Char.toLower⟩

/-- The guarded state mutation of `record_trade` before the bookkeeping
tail (`portfolio_manager.py:252-334`): `none` is any of the early
`return False` paths (insufficient cash on a buy, absent symbol or
insufficient quantity on a sell, unknown action), each of which leaves the
state untouched; `some st'` is the mutated state of a successful buy or
sell. -/
def tradeApply (symbol action : String) (quantity price : ℚ)
    (timestamp : String) (st : PortfolioState) : Option PortfolioState :=
  let trade_value := quantity * price
  if pyLower action = "buy" then
    if trade_value > st.cash then none
    else
      some { st with cash := st.cash - trade_value,
                     holdings := buyUpdate st.holdings symbol quantity price
                                   trade_value timestamp }
  else if pyLower action = "sell" then
    match lookupH st.holdings symbol with
    | none => none
    | some h =>
      if quantity > h.quantity then none
      else
        some { st with cash := st.cash + trade_value,
                       holdings := sellUpdate st.holdings symbol h quantity
                                     price timestamp }
  else none

/-- The history append of `_record_portfolio_snapshot`
(`portfolio_manager.py:360-382`). -/
def recordSnapshot (date : String) (st : PortfolioState) : PortfolioState :=
  { st with history := st.history ++
      [{ date := date, total_value := st.total_value, cash := st.cash,
         holdings := st.holdings.map (fun e =>
           (e.1, { quantity := e.2.quantity,
                   current_value := e.2.current_value,
                   allocation := e.2.allocation })) }] }

/-- The `record_trade` method (`portfolio_manager.py:233-358`).  `timestamp`
is the trade timestamp, `now` the wall-clock stamp used by the embedded
`update_prices` call, `snapDate` the snapshot date, and `prices` the price
data available to the embedded `update_prices` call (see `update_prices`).
On any rejected trade it returns `(false, st)` with the state untouched;
on success it appends the trade record, runs the valuation refresh (whose
own failure is ignored, as in the source, which discards its return value),
appends a snapshot and returns `True`. -/
def record_trade (symbol action : String) (quantity price : ℚ)
    (timestamp now snapDate : String) (prices : Option (List (String × ℚ)))
    (st : PortfolioState) : Bool × PortfolioState :=
  match tradeApply symbol action quantity price timestamp st with
  | none => (false, st)
  | some st1 =>
    let st2 := { st1 with trades := st1.trades ++
        [{ timestamp := timestamp, symbol := symbol, action := action,
           quantity := quantity, price := price,
           value := quantity * price }] }
    let st3 := (update_prices now prices st2).2
    (true, recordSnapshot snapDate st3)

/-!
Order lifecycle manager embedding (`src/modules/order_manager.py`, class
`OrderManager`).

Python order dicts hold loosely typed values; the fields the validator feeds
to `float(...)` are modelled by `PyVal`, which distinguishes exactly the
cases `float` distinguishes: a number, a string that parses as a float
(carried with its parsed value), a string that does not parse (ValueError),
and a non-number non-string value such as `None` or a list (TypeError).
-/

/-- A Python value appearing in an order's `amount` or `price` slot. -/
inductive PyVal where
  | num (q : ℚ)
  | numStr (q : ℚ)
  | badStr (s : String)
  | pyNone
  | other
deriving DecidableEq, Repr

/-- The two Python exception classes `float(...)` can raise on such a value. -/
inductive PyErr where
  | valueError
  | typeError
deriving DecidableEq, Repr

/-- Python `float(x)`: numbers and numeric strings convert, a non-numeric
string raises `ValueError`, and a non-number non-string value (e.g. `None`)
raises `TypeError`. -/
def pyFloat : PyVal → Except PyErr ℚ
  | .num q => .ok q
  | .numStr q => .ok q
  | .badStr _ => .error .valueError
  | .pyNone => .error .typeError
  | .other => .error .typeError

/-- One configured asset (`assets.yaml` entry): the fields `_get_asset_info`
and `submit_order` read.  The crypto/stocks category split only affects the
derived `type` annotation, which no modelled code path reads, so the two
category lists are modelled as one list searched in order
(`order_manager.py:100-116`). -/
structure Asset where
  symbol : String
  exchange : String
deriving DecidableEq, Repr

/-- `_get_asset_info` (`order_manager.py:100-116`): first configured asset
with the given symbol, or `None`. -/
def get_asset_info : List Asset → String → Option Asset
  | [], _ => none
  | a :: t, s => if a.symbol = s then some a else get_asset_info t s

/-- An order dict as fed to `_validate_order` / `submit_order`: each field
is present (`some`) or absent from the dict (`none`).  `symbol`, `type` and
`side` are only ever compared to string constants, so they are modelled as
strings; `amount` and `price` are fed to `float(...)`, so they carry a
`PyVal`. -/
structure Order where
  symbol : Option String
  otype : Option String
  side : Option String
  amount : Option PyVal
  price : Option PyVal
deriving DecidableEq, Repr

/-- The `{valid, errors}` dict returned by `_validate_order`. -/
structure ValidationResult where
  valid : Bool
  errors : List String
deriving DecidableEq, Repr

/-- The missing-required-field error strings, accumulated in the source's
field order `[symbol, type, side, amount]` (`order_manager.py:130-134`). -/
def missingFieldErrors (o : Order) : List String :=
  (if o.symbol.isNone then ["Missing required field: symbol"] else []) ++
  (if o.otype.isNone then ["Missing required field: type"] else []) ++
  (if o.side.isNone then ["Missing required field: side"] else []) ++
  (if o.amount.isNone then ["Missing required field: amount"] else [])

/-- The amount check of `_validate_order` (`order_manager.py:161-167`):
`float(amount)` inside `try/except ValueError`.  A `ValueError` becomes an
error string, a non-positive value becomes an error string, but a
`TypeError` is NOT caught and propagates. -/
def amountErrors (amt : PyVal) : Except PyErr (List String) :=
  match pyFloat amt with
  | .ok a => .ok (if a ≤ 0 then ["Invalid amount: must be greater than 0"] else [])
  | .error .valueError => .ok ["Invalid amount: must be a number"]
  | .error .typeError => .error .typeError

/-- The limit-price check of `_validate_order` (`order_manager.py:169-178`):
only for `type == 'limit'`; a missing price is an error, then `float(price)`
inside `try/except ValueError`, with `TypeError` again uncaught. -/
def priceErrors (ty : String) (price : Option PyVal) : Except PyErr (List String) :=
  if ty = "limit" then
    match price with
    | none => .ok ["Price is required for limit orders"]
    | some pv =>
      match pyFloat pv with
      | .ok p => .ok (if p ≤ 0 then ["Invalid price: must be greater than 0"] else [])
      | .error .valueError => .ok ["Invalid price: must be a number"]
      | .error .typeError => .error .typeError
  else .ok []

/-- The `_validate_order` method (`order_manager.py:118-183`).  A missing
required field short-circuits (the remaining checks are skipped), and so
does an unresolvable symbol (`order_manager.py:143-149` returns
immediately); after that the type, side, amount and limit-price checks all
accumulate into one errors list.  The result is `Except` because the
uncaught `TypeError` from `float(...)` escapes to the caller.  Error
strings keep the source's distinguishing prefix; the interpolated
offending value and the trailing `Must be ...` explanations of the amount,
price, type and side messages are abbreviated (one string per appended
error, as in the source). -/
def validate_order (assets : List Asset) (o : Order) :
    Except PyErr ValidationResult :=
  let missing := missingFieldErrors o
  if missing.isEmpty = false then .ok { valid := false, errors := missing }
  else
    match o.symbol, o.otype, o.side, o.amount with
    | some sym, some ty, some sd, some amt =>
      match get_asset_info assets sym with
      | none => .ok { valid := false, errors := ["Asset not found: " ++ sym] }
      | some _ =>
        let typeErrs :=
          if ty = "market" ∨ ty = "limit" then []
          else ["Invalid order type: " ++ ty]
        let sideErrs :=
          if sd = "buy" ∨ sd = "sell" then []
          else ["Invalid order side: " ++ sd]
        match amountErrors amt with
        | .error e => .error e
        | .ok amtErrs =>
          match priceErrors ty o.price with
          | .error e => .error e
          | .ok prErrs =>
            let errors := typeErrs ++ sideErrs ++ amtErrs ++ prErrs
            .ok { valid := errors.isEmpty, errors := errors }
    | _, _, _, _ => .ok { valid := false, errors := missing }

/-- The order result dict returned by `_place_kucoin_order` /
`_place_dummy_kucoin_order` (`order_manager.py:275-286,319-329`), restricted
to the fields the modelled callers and claims read.  A present `status` is
always `"success"` on both paths; error submission results are built in
`submit_order` itself. -/
structure PlacedResult where
  order_id : String
  symbol : String
  side : String
  status : String
  exchange : String
deriving DecidableEq, Repr

/-- `_place_dummy_kucoin_order` (`order_manager.py:300-329`): a simulated
fill with a `dummy-order-<unix-time>` id and status `"success"`. -/
def place_dummy_kucoin_order (nowTs : String) (o : Order) : PlacedResult :=
  { order_id := "dummy-order-" ++ nowTs
    symbol := o.symbol.getD ""
    side := o.side.getD ""
    status := "success"
    exchange := "kucoin" }

/-- The outcome of the live KuCoin dispatch attempted inside the `try` of
`_place_kucoin_order` (`order_manager.py:202-289`): either the venue call
chain succeeds and yields an order id, or some step of it (client
construction, price lookup for sells, the REST call, ...) raises. -/
inductive GatewayOutcome where
  | ok (orderId : String)
  | raised (msg : String)
deriving DecidableEq, Repr

/-- `_place_kucoin_order` (`order_manager.py:185-298`): in test mode it goes
straight to the dummy adapter; otherwise it attempts the live dispatch and,
if that raises, logs a warning and falls back to the dummy adapter
(`order_manager.py:291-298`). -/
def place_kucoin_order (test_mode : Bool) (gw : GatewayOutcome)
    (nowTs : String) (o : Order) : PlacedResult :=
  if test_mode then place_dummy_kucoin_order nowTs o
  else
    match gw with
    | .ok oid =>
      { order_id := oid
        symbol := o.symbol.getD ""
        side := o.side.getD ""
        status := "success"
        exchange := "kucoin" }
    | .raised _ => place_dummy_kucoin_order nowTs o

/-- The three result shapes `submit_order` can return
(`order_manager.py:442-478`). -/
inductive SubmitResult where
  | error (reason : String) (errors : List String)
  | pending_confirmation (order : Order) (message : String)
  | placed (r : PlacedResult)
deriving DecidableEq, Repr

/-- A `submit_order` run together with its side effects: whether
`_place_kucoin_order` was invoked at all, and what `_save_order` persisted
(if it was called). -/
structure SubmitOutcome where
  result : SubmitResult
  placeCalled : Bool
  savedOrder : Option PlacedResult
deriving DecidableEq, Repr

/-- The `OrderManager` configuration state read by `submit_order`:
the `trade_confirmation` system setting, the `test_mode` flag and the
configured assets (`order_manager.py:39,52,64`). -/
structure OMConfig where
  trade_confirmation : Bool
  test_mode : Bool
  assets : List Asset
deriving DecidableEq, Repr

/-- The `submit_order` method (`order_manager.py:428-478`): validate (an
uncaught `TypeError` from validation propagates, hence `Except`); on
invalid, return an error result without persisting; resolve the effective
confirmation requirement (the `confirm` override when supplied, else the
global setting) and, when required, return `pending_confirmation` without
dispatching or persisting; otherwise resolve the asset's exchange,
dispatch `kucoin` orders via `_place_kucoin_order` and persist the result,
and fail on any other exchange.  (After validation the symbol is present
and resolvable, so the `getD` defaults on the asset lookup are never
taken.) -/
def submit_order (cfg : OMConfig) (gw : GatewayOutcome) (nowTs : String)
    (o : Order) (confirm : Option Bool) : Except PyErr SubmitOutcome :=
  match validate_order cfg.assets o with
  | .error e => .error e
  | .ok v =>
    if v.valid = false then
      .ok { result := .error "Validation failed" v.errors
            placeCalled := false, savedOrder := none }
    else
      let require_confirmation :=
        match confirm with
        | some c => c
        | none => cfg.trade_confirmation
      if require_confirmation then
        .ok { result := .pending_confirmation o
                "Order is valid but requires confirmation"
              placeCalled := false, savedOrder := none }
      else
        let exchange :=
          pyLower (((get_asset_info cfg.assets (o.symbol.getD "")).map
            Asset.exchange).getD "")
        if exchange = "kucoin" then
          let r := place_kucoin_order cfg.test_mode gw nowTs o
          .ok { result := .placed r, placeCalled := true, savedOrder := some r }
        else
          .ok { result := .error ("Unsupported exchange: " ++ exchange) []
                placeCalled := false, savedOrder := none }

/-!
Helper lemmas about the embedded ledger operations.
-/

theorem pyLower_buy : pyLower "buy" = "buy" := by decide

theorem pyLower_sell : pyLower "sell" = "sell" := by decide

theorem sell_ne_buy : pyLower "sell" ≠ "buy" := by decide

theorem findE_eq_key {l : List (String × Holding)} {s : String}
    {e : String × Holding} (h : findE l s = some e) : e.1 = s := by
  induction l with
  | nil => simp [findE] at h
  | cons a t ih =>
    by_cases ha : a.1 = s
    · simp [findE, ha] at h
      simp [← h, ha]
    · simp [findE, ha] at h
      exact ih h

theorem findE_mem {l : List (String × Holding)} {s : String}
    {e : String × Holding} (h : findE l s = some e) : e ∈ l := by
  induction l with
  | nil => simp [findE] at h
  | cons a t ih =>
    by_cases ha : a.1 = s
    · simp [findE, ha] at h
      simp [← h]
    · simp [findE, ha] at h
      exact List.mem_cons_of_mem a (ih h)

theorem findE_map (g : String × Holding → String × Holding)
    (hg : ∀ e, (g e).1 = e.1) (l : List (String × Holding)) (s : String) :
    findE (l.map g) s = (findE l s).map g := by
  induction l with
  | nil => rfl
  | cons e t ih =>
    by_cases h : e.1 = s
    · simp [findE, hg e, h]
    · simp [findE, hg e, h, ih]

theorem findE_append (l l' : List (String × Holding)) (s : String) :
    findE (l ++ l') s =
      match findE l s with
      | some e => some e
      | none => findE l' s := by
  induction l with
  | nil => simp [findE]
  | cons e t ih =>
    by_cases h : e.1 = s
    · simp [findE, h]
    · simp [findE, h, ih]

theorem findE_none_of_not_mem {l : List (String × Holding)} {s : String}
    (h : s ∉ l.map Prod.fst) : findE l s = none := by
  induction l with
  | nil => rfl
  | cons e t ih =>
    simp only [List.map_cons, List.mem_cons] at h
    push_neg at h
    have hne : ¬ e.1 = s := fun hh => h.1 hh.symm
    simp [findE, hne, ih h.2]

theorem findE_setH_self {l : List (String × Holding)} {s : String}
    {e : String × Holding} (hf : findE l s = some e) (h : Holding) :
    findE (setH l s h) s = some (s, h) := by
  induction l with
  | nil => simp [findE] at hf
  | cons a t ih =>
    by_cases ha : a.1 = s
    · simp [setH, findE, ha]
    · simp [findE, ha] at hf
      simp [setH, findE, ha, ih hf]

theorem mem_setH {l : List (String × Holding)} {s : String} {h : Holding}
    {e : String × Holding} (he : e ∈ setH l s h) : e ∈ l ∨ e = (s, h) := by
  induction l with
  | nil => simp [setH] at he
  | cons a t ih =>
    by_cases ha : a.1 = s
    · simp [setH, ha, List.mem_cons] at he
      rcases he with he | he
      · right; exact he
      · left; exact List.mem_cons_of_mem a he
    · simp [setH, ha, List.mem_cons] at he
      rcases he with he | he
      · left; simp [he]
      · rcases ih he with h1 | h1
        · left; exact List.mem_cons_of_mem a h1
        · right; exact h1

theorem mem_eraseH {l : List (String × Holding)} {s : String}
    {e : String × Holding} (he : e ∈ eraseH l s) : e ∈ l := by
  induction l with
  | nil => simp [eraseH] at he
  | cons a t ih =>
    by_cases ha : a.1 = s
    · simp [eraseH, ha] at he
      exact List.mem_cons_of_mem a he
    · simp [eraseH, ha, List.mem_cons] at he
      rcases he with he | he
      · simp [he]
      · exact List.mem_cons_of_mem a (ih he)

theorem findE_eraseH_self {l : List (String × Holding)} {s : String}
    (hnd : (l.map Prod.fst).Nodup) : findE (eraseH l s) s = none := by
  induction l with
  | nil => rfl
  | cons a t ih =>
    simp only [List.map_cons, List.nodup_cons] at hnd
    by_cases ha : a.1 = s
    · simp only [eraseH, ha, if_pos]
      exact findE_none_of_not_mem (ha ▸ hnd.1)
    · simp [eraseH, findE, ha, ih hnd.2]

theorem upEntry_fst (now : String) (ps : List (String × ℚ))
    (e : String × Holding) : (upEntry now ps e).1 = e.1 := by
  unfold upEntry
  rcases h : lookupPrice ps e.1 with _ | p
  · rfl
  · by_cases hp : p = 0 <;> simp [hp]

theorem upEntry_preserves (now : String) (ps : List (String × ℚ))
    (e : String × Holding) :
    (upEntry now ps e).2.quantity = e.2.quantity ∧
    (upEntry now ps e).2.cost_basis = e.2.cost_basis ∧
    (upEntry now ps e).2.average_price = e.2.average_price := by
  unfold upEntry
  rcases h : lookupPrice ps e.1 with _ | p
  · exact ⟨rfl, rfl, rfl⟩
  · by_cases hp : p = 0 <;> simp [hp, updateHolding]

theorem allocEntry_fst (t : ℚ) (e : String × Holding) :
    (allocEntry t e).1 = e.1 := rfl

theorem sumCV_append (l l' : List (String × Holding)) :
    sumCV (l ++ l') = sumCV l + sumCV l' := by
  simp [sumCV]

theorem sumCV_cons (e : String × Holding) (l : List (String × Holding)) :
    sumCV (e :: l) = e.2.current_value + sumCV l := by
  simp [sumCV]

theorem sumCV_map_alloc (t : ℚ) (l : List (String × Holding)) :
    sumCV (l.map (allocEntry t)) = sumCV l := by
  simp [sumCV, allocEntry, List.map_map]
  rfl

theorem foldl_upStep_snd (now : String) (ps : List (String × ℚ)) :
    ∀ (l : List (String × Holding)) (c : ℚ) (done : List (String × Holding)),
      (l.foldl (upStep now ps) (c, done)).2 = done ++ l.map (upEntry now ps) := by
  intro l
  induction l with
  | nil => intro c done; simp
  | cons e t ih =>
    intro c done
    rcases h : lookupPrice ps e.1 with _ | p
    · simp only [List.foldl_cons, upStep, h, ih, upEntry, List.map_cons]
      simp
    · by_cases hp : p = 0
      · simp only [List.foldl_cons, upStep, h, hp, if_pos, ih, upEntry,
          List.map_cons]
        simp
      · simp only [List.foldl_cons, upStep, h, hp, if_neg, ite_false, ih,
          upEntry, List.map_cons]
        simp [hp]

/-- Price coverage: every held symbol has a price entry whose value is
nonzero (so the `update_prices` loop refreshes every holding). -/
def covered (ps : List (String × ℚ)) (hs : List (String × Holding)) : Prop :=
  ∀ e ∈ hs, (lookupPrice ps e.1).getD 0 ≠ 0

theorem covered_cons {ps : List (String × ℚ)} {e : String × Holding}
    {l : List (String × Holding)} (h : covered ps (e :: l)) :
    (lookupPrice ps e.1).getD 0 ≠ 0 ∧ covered ps l :=
  ⟨h e (List.mem_cons_self e l), fun e' he' => h e' (List.mem_cons_of_mem e he')⟩

theorem covered_map {ps : List (String × ℚ)}
    (g : String × Holding → String × Holding) (hg : ∀ e, (g e).1 = e.1)
    {l : List (String × Holding)} (h : covered ps (l.map g)) : covered ps l := by
  intro e he
  have := h (g e) (List.mem_map_of_mem g he)
  rwa [hg e] at this

theorem foldl_upStep_fst (now : String) (ps : List (String × ℚ)) :
    ∀ (l : List (String × Holding)) (c : ℚ), covered ps l →
      (l.foldl (upStep now ps) (c, [])).1 = c + sumCV (l.map (upEntry now ps)) := by
  have main : ∀ (l : List (String × Holding)) (c : ℚ)
      (done : List (String × Holding)), covered ps l →
      (l.foldl (upStep now ps) (c, done)).1 = c + sumCV (l.map (upEntry now ps)) := by
    intro l
    induction l with
    | nil => intro c done _; simp [sumCV]
    | cons e t ih =>
      intro c done hcov
      rcases covered_cons hcov with ⟨he, ht⟩
      rcases h : lookupPrice ps e.1 with _ | p
      · rw [h] at he; simp at he
      · rw [h] at he
        simp only [Option.getD_some] at he
        simp only [List.foldl_cons, upStep, h, if_neg he, List.map_cons]
        rw [ih _ _ ht, sumCV_cons]
        simp only [upEntry, h, if_neg he]
        ring
  intro l c hcov
  exact main l c [] hcov

theorem update_prices_cash (now : String) (prices : Option (List (String × ℚ)))
    (st : PortfolioState) : (update_prices now prices st).2.cash = st.cash := by
  rcases prices with _ | ps
  · rfl
  · by_cases h : ps.isEmpty
    · simp [update_prices, h]
    · simp only [update_prices, h, Bool.false_eq_true, if_neg, ite_false]
      unfold calculate_allocations
      split <;> rfl

theorem update_prices_holdings_eq (now : String) (ps : List (String × ℚ))
    (st : PortfolioState) (hne : ps.isEmpty = false) :
    ∃ g : String × Holding → String × Holding,
      (∀ e, (g e).1 = e.1) ∧
      (∀ e, (g e).2.quantity = e.2.quantity ∧
            (g e).2.cost_basis = e.2.cost_basis ∧
            (g e).2.average_price = e.2.average_price) ∧
      (update_prices now (some ps) st).2.holdings = st.holdings.map g := by
  simp only [update_prices, hne, Bool.false_eq_true, if_neg, ite_false]
  unfold calculate_allocations
  rw [foldl_upStep_snd]
  simp only [List.nil_append]
  split
  · exact ⟨upEntry now ps, upEntry_fst now ps, upEntry_preserves now ps, rfl⟩
  · refine ⟨fun e =>
      allocEntry ((st.holdings.foldl (upStep now ps) (st.cash, [])).1)
        (upEntry now ps e), ?_, ?_, ?_⟩
    · intro e; rw [allocEntry_fst, upEntry_fst]
    · intro e
      rcases upEntry_preserves now ps e with ⟨h1, h2, h3⟩
      exact ⟨h1, h2, h3⟩
    · rw [List.map_map]
      rfl

theorem update_prices_lookup (now : String)
    (prices : Option (List (String × ℚ))) (st : PortfolioState) (s : String)
    {h : Holding} (hl : lookupH st.holdings s = some h) :
    ∃ h', lookupH (update_prices now prices st).2.holdings s = some h' ∧
      h'.quantity = h.quantity ∧ h'.cost_basis = h.cost_basis ∧
      h'.average_price = h.average_price := by
  rcases prices with _ | ps
  · exact ⟨h, hl, rfl, rfl, rfl⟩
  · by_cases hne : ps.isEmpty
    · simp only [update_prices, hne, if_pos]
      exact ⟨h, hl, rfl, rfl, rfl⟩
    · rcases update_prices_holdings_eq now ps st (Bool.not_eq_true _ ▸ hne) with
        ⟨g, hg1, hg2, hg3⟩
      rcases he : findE st.holdings s with _ | e
      · rw [lookupH, he] at hl; simp at hl
      · rw [lookupH, he] at hl
        have hl2 : e.2 = h := by simpa using hl
        refine ⟨(g e).2, ?_, ?_⟩
        · rw [hg3, lookupH, findE_map g hg1, he]
          rfl
        · rw [← hl2]
          exact hg2 e

theorem update_prices_lookup_none (now : String)
    (prices : Option (List (String × ℚ))) (st : PortfolioState) (s : String)
    (hl : lookupH st.holdings s = none) :
    lookupH (update_prices now prices st).2.holdings s = none := by
  rcases prices with _ | ps
  · exact hl
  · by_cases hne : ps.isEmpty
    · simp only [update_prices, hne, if_pos]
      exact hl
    · rcases update_prices_holdings_eq now ps st (Bool.not_eq_true _ ▸ hne) with
        ⟨g, hg1, _, hg3⟩
      rcases he : findE st.holdings s with _ | e
      · rw [hg3, lookupH, findE_map g hg1, he]
        rfl
      · rw [lookupH, he] at hl; simp at hl

theorem update_prices_covered_inv (now : String) (ps : List (String × ℚ))
    (st : PortfolioState) (hne : ps.isEmpty = false)
    (hcov : covered ps st.holdings) :
    (update_prices now (some ps) st).1 = true ∧
    (update_prices now (some ps) st).2.total_value =
      (update_prices now (some ps) st).2.cash +
        sumCV (update_prices now (some ps) st).2.holdings := by
  refine ⟨by simp [update_prices, hne], ?_⟩
  simp only [update_prices, hne, Bool.false_eq_true, if_neg, ite_false]
  rw [foldl_upStep_fst now ps st.holdings st.cash hcov]
  unfold calculate_allocations
  rw [foldl_upStep_snd]
  simp only [List.nil_append]
  split
  · rfl
  · rw [List.map_map, ← List.map_map, sumCV_map_alloc]

theorem covered_update_prices_back (now : String) (ps : List (String × ℚ))
    (st : PortfolioState) (hne : ps.isEmpty = false)
    (hcov : covered ps (update_prices now (some ps) st).2.holdings) :
    covered ps st.holdings := by
  rcases update_prices_holdings_eq now ps st hne with ⟨g, hg1, _, hg3⟩
  rw [hg3] at hcov
  exact covered_map g hg1 hcov

theorem recordSnapshot_cash (d : String) (st : PortfolioState) :
    (recordSnapshot d st).cash = st.cash := rfl

theorem recordSnapshot_total (d : String) (st : PortfolioState) :
    (recordSnapshot d st).total_value = st.total_value := rfl

theorem recordSnapshot_holdings (d : String) (st : PortfolioState) :
    (recordSnapshot d st).holdings = st.holdings := rfl

theorem record_trade_success {symbol action : String} {quantity price : ℚ}
    {timestamp now snapDate : String} {prices : Option (List (String × ℚ))}
    {st : PortfolioState}
    (h : (record_trade symbol action quantity price timestamp now snapDate
            prices st).1 = true) :
    ∃ st1, tradeApply symbol action quantity price timestamp st = some st1 ∧
      (record_trade symbol action quantity price timestamp now snapDate
          prices st).2 =
        recordSnapshot snapDate
          (update_prices now prices
            { st1 with trades := st1.trades ++
                [{ timestamp := timestamp, symbol := symbol, action := action,
                   quantity := quantity, price := price,
                   value := quantity * price }] }).2 := by
  rcases ht : tradeApply symbol action quantity price timestamp st with _ | st1
  · rw [record_trade, ht] at h
    simp at h
  · refine ⟨st1, rfl, ?_⟩
    rw [record_trade, ht]

theorem record_trade_failure {symbol action : String} {quantity price : ℚ}
    {timestamp now snapDate : String} {prices : Option (List (String × ℚ))}
    {st : PortfolioState}
    (h : (record_trade symbol action quantity price timestamp now snapDate
            prices st).1 = false) :
    (record_trade symbol action quantity price timestamp now snapDate
        prices st).2 = st := by
  rcases ht : tradeApply symbol action quantity price timestamp st with _ | st1
  · rw [record_trade, ht]
  · rw [record_trade, ht] at h
    simp at h

theorem lookupH_none_iff {hs : List (String × Holding)} {s : String} :
    lookupH hs s = none ↔ findE hs s = none := by
  rcases h : findE hs s with _ | e <;> simp [lookupH, h]

theorem lookupH_some {hs : List (String × Holding)} {s : String} {h : Holding}
    (hl : lookupH hs s = some h) : findE hs s = some (s, h) := by
  rcases he : findE hs s with _ | e
  · rw [lookupH, he] at hl; simp at hl
  · rw [lookupH, he] at hl
    have h2 : e.2 = h := by simpa using hl
    have h1 : e.1 = s := findE_eq_key he
    cases e
    simp only at h1 h2
    rw [h1, h2]

theorem tradeApply_buy (sym : String) (q p : ℚ) (ts : String)
    (st : PortfolioState) :
    tradeApply sym "buy" q p ts st =
      if q * p > st.cash then none
      else some { st with cash := st.cash - q * p,
                          holdings := buyUpdate st.holdings sym q p (q * p) ts } := by
  simp [tradeApply, pyLower_buy]

theorem tradeApply_sell (sym : String) (q p : ℚ) (ts : String)
    (st : PortfolioState) :
    tradeApply sym "sell" q p ts st =
      match lookupH st.holdings sym with
      | none => none
      | some h =>
        if q > h.quantity then none
        else some { st with cash := st.cash + q * p,
                            holdings := sellUpdate st.holdings sym h q p ts } := by
  simp [tradeApply, pyLower_sell, sell_ne_buy]

/-!
Concrete scenario states from the spec's §8 test scenarios, built by running
the embedded operations, plus literal forms proved once and reused.
-/

/-- The freshly initialized portfolio with the default configured capital. -/
def st0 : PortfolioState := initializePortfolio 10000 "d0"

/-- Scenario A run: buy 0.04 BTC at 50000 (2000 USD) out of 10000 cash,
with no price fetcher available for the post-trade refresh. -/
def runA : Bool × PortfolioState :=
  record_trade "BTC" "buy" (0.04 : ℚ) 50000 "t1" "t1" "d1" none st0

/-- The portfolio state after Scenario A. -/
def stA : PortfolioState := runA.2

/-- The holding held in `stA`. -/
def holdA : Holding :=
  { symbol := "BTC", quantity := 1/25, cost_basis := 2000,
    average_price := 50000, current_price := 50000, current_value := 2000,
    profit_loss := 0, profit_loss_percent := 0, allocation := 0,
    first_purchased := "t1", last_updated := "t1" }

theorem runA_fst : runA.1 = true := by
  norm_num +decide [runA, st0, record_trade, tradeApply, pyLower_buy,
    buyUpdate, mkHolding, lookupH, findE, update_prices, recordSnapshot,
    initializePortfolio]

theorem stA_lit : stA =
    { created_at := "d0", updated_at := "d0", initial_capital := 10000,
      cash := 8000, total_value := 10000,
      holdings := [("BTC", holdA)],
      trades := [{ timestamp := "t1", symbol := "BTC", action := "buy",
                   quantity := 1/25, price := 50000, value := 2000 }],
      history := [{ date := "d0", total_value := 10000, cash := 10000,
                    holdings := [] },
                  { date := "d1", total_value := 10000, cash := 8000,
                    holdings := [("BTC",
                      { quantity := 1/25, current_value := 2000,
                        allocation := (0:ℚ) })] }] } := by
  norm_num +decide [stA, runA, st0, record_trade, tradeApply, pyLower_buy,
    buyUpdate, mkHolding, lookupH, findE, update_prices, recordSnapshot,
    initializePortfolio, holdA]

/-- Scenario B: a price update to 60000 on the Scenario A state. -/
def stB : PortfolioState := (update_prices "t2" (some [("BTC", (60000:ℚ))]) stA).2

/-- The holding held in `stB`. -/
def holdB : Holding :=
  { symbol := "BTC", quantity := 1/25, cost_basis := 2000,
    average_price := 50000, current_price := 60000, current_value := 2400,
    profit_loss := 400, profit_loss_percent := 20, allocation := 3/13,
    first_purchased := "t1", last_updated := "t2" }

theorem stB_lit : stB =
    { created_at := "d0", updated_at := "t2", initial_capital := 10000,
      cash := 8000, total_value := 10400,
      holdings := [("BTC", holdB)],
      trades := [{ timestamp := "t1", symbol := "BTC", action := "buy",
                   quantity := 1/25, price := 50000, value := 2000 }],
      history := [{ date := "d0", total_value := 10000, cash := 10000,
                    holdings := [] },
                  { date := "d1", total_value := 10000, cash := 8000,
                    holdings := [("BTC",
                      { quantity := 1/25, current_value := 2000,
                        allocation := (0:ℚ) })] }] } := by
  rw [stB, stA_lit]
  norm_num +decide [update_prices, upStep, updateHolding, lookupPrice,
    calculate_allocations, allocEntry, holdA, holdB]

/-!
Claim theorems.
-/

/-- C5: whenever `record_trade` fails (insufficient funds on a buy, absent
symbol or insufficient quantity on a sell, or an unknown action), it returns
`false` and the entire portfolio state — cash, holdings, trades and
history — is exactly as before the call. -/
theorem C5_record_trade_failure_atomic (symbol action : String)
    (quantity price : ℚ) (timestamp now snapDate : String)
    (prices : Option (List (String × ℚ))) (st : PortfolioState)
    (h : (record_trade symbol action quantity price timestamp now snapDate
            prices st).1 = false) :
    (record_trade symbol action quantity price timestamp now snapDate
        prices st).2 = st :=
  record_trade_failure h

/-- Witness for C5: selling a symbol that is not held fails and leaves the
freshly initialized portfolio untouched. -/
theorem C5_witness :
    (record_trade "BTC" "sell" 1 100 "t" "t" "d" none st0).1 = false ∧
    (record_trade "BTC" "sell" 1 100 "t" "t" "d" none st0).2 = st0 := by
  have h1 : (record_trade "BTC" "sell" 1 100 "t" "t" "d" none st0).1 = false := by
    norm_num +decide [record_trade, tradeApply, st0, initializePortfolio,
      lookupH, findE]
  exact ⟨h1, C5_record_trade_failure_atomic "BTC" "sell" 1 100 "t" "t" "d"
    none st0 h1⟩

/-- C3: a buy recorded via `record_trade` fails exactly when
`quantity × price` exceeds the available cash; on success cash decreases by
`quantity × price`; a first purchase creates a holding with
`cost_basis = quantity × price` and `average_price = price`; a repeat
purchase accumulates `cost_basis` and recomputes the weighted average price
`(old_cost_basis + quantity × price) / (old_quantity + quantity)`; and in
particular Scenario A (initial capital 10000, buy 0.04 BTC at 50000) leaves
cash 8000 with cost basis 2000 and average price 50000. -/
theorem C3_buy_semantics :
    (∀ (sym : String) (q p : ℚ) (ts now sd : String)
        (prices : Option (List (String × ℚ))) (st : PortfolioState),
      (record_trade sym "buy" q p ts now sd prices st).1 = false ↔
        q * p > st.cash) ∧
    (∀ (sym : String) (q p : ℚ) (ts now sd : String)
        (prices : Option (List (String × ℚ))) (st : PortfolioState),
      ¬ q * p > st.cash →
      (record_trade sym "buy" q p ts now sd prices st).2.cash =
        st.cash - q * p) ∧
    (∀ (sym : String) (q p : ℚ) (ts now sd : String)
        (prices : Option (List (String × ℚ))) (st : PortfolioState),
      ¬ q * p > st.cash → lookupH st.holdings sym = none →
      ∃ h', lookupH (record_trade sym "buy" q p ts now sd prices
              st).2.holdings sym = some h' ∧
        h'.cost_basis = q * p ∧ h'.average_price = p ∧ h'.quantity = q) ∧
    (∀ (sym : String) (q p : ℚ) (ts now sd : String)
        (prices : Option (List (String × ℚ))) (st : PortfolioState)
        (h : Holding),
      ¬ q * p > st.cash → lookupH st.holdings sym = some h →
      0 < h.quantity + q →
      ∃ h', lookupH (record_trade sym "buy" q p ts now sd prices
              st).2.holdings sym = some h' ∧
        h'.cost_basis = h.cost_basis + q * p ∧
        h'.average_price = (h.cost_basis + q * p) / (h.quantity + q) ∧
        h'.quantity = h.quantity + q) ∧
    (runA.1 = true ∧ stA.cash = 8000 ∧
     (lookupH stA.holdings "BTC").map Holding.quantity = some (0.04 : ℚ) ∧
     (lookupH stA.holdings "BTC").map Holding.cost_basis = some 2000 ∧
     (lookupH stA.holdings "BTC").map Holding.average_price = some 50000) := by
  refine ⟨?_, ?_, ?_, ?_, ?_⟩
  · intro sym q p ts now sd prices st
    by_cases hc : q * p > st.cash
    · simp [record_trade, tradeApply_buy, hc]
    · simp [record_trade, tradeApply_buy, hc]
  · intro sym q p ts now sd prices st hc
    have h1 : tradeApply sym "buy" q p ts st =
        some { st with cash := st.cash - q * p,
                       holdings := buyUpdate st.holdings sym q p (q * p) ts } := by
      rw [tradeApply_buy, if_neg hc]
    rw [record_trade, h1]
    rw [recordSnapshot_cash, update_prices_cash]
  · intro sym q p ts now sd prices st hc hnone
    have hfind : findE st.holdings sym = none := lookupH_none_iff.mp hnone
    have hbuy : buyUpdate st.holdings sym q p (q * p) ts =
        st.holdings ++ [(sym, mkHolding sym q p (q * p) ts)] := by
      rw [buyUpdate, hnone]
    have h1 : tradeApply sym "buy" q p ts st =
        some { st with cash := st.cash - q * p,
                       holdings := st.holdings ++
                         [(sym, mkHolding sym q p (q * p) ts)] } := by
      rw [tradeApply_buy, if_neg hc, hbuy]
    have h2 : lookupH (st.holdings ++ [(sym, mkHolding sym q p (q * p) ts)])
        sym = some (mkHolding sym q p (q * p) ts) := by
      rw [lookupH, findE_append, hfind]
      simp [findE]
    rw [record_trade, h1]
    rcases update_prices_lookup now prices
        { st with cash := st.cash - q * p,
                  holdings := st.holdings ++
                    [(sym, mkHolding sym q p (q * p) ts)],
                  trades := st.trades ++
                    [{ timestamp := ts, symbol := sym, action := "buy",
                       quantity := q, price := p, value := q * p }] }
        sym h2 with ⟨h', hh', hq, hcb, hap⟩
    rw [recordSnapshot_holdings]
    exact ⟨h', hh', by rw [hcb]; rfl, by rw [hap]; rfl, by rw [hq]; rfl⟩
  · intro sym q p ts now sd prices st h hc hsome hqpos
    have hfind : findE st.holdings sym = some (sym, h) := lookupH_some hsome
    have hbuy : buyUpdate st.holdings sym q p (q * p) ts =
        setH st.holdings sym
          { h with quantity := h.quantity + q,
                   cost_basis := h.cost_basis + q * p,
                   average_price := (h.cost_basis + q * p) / (h.quantity + q),
                   current_price := p,
                   current_value := (h.quantity + q) * p,
                   last_updated := ts } := by
      rw [buyUpdate, hsome]
      simp [hqpos]
    have h1 : tradeApply sym "buy" q p ts st =
        some { st with cash := st.cash - q * p,
                       holdings := setH st.holdings sym
                         { h with quantity := h.quantity + q,
                                  cost_basis := h.cost_basis + q * p,
                                  average_price :=
                                    (h.cost_basis + q * p) / (h.quantity + q),
                                  current_price := p,
                                  current_value := (h.quantity + q) * p,
                                  last_updated := ts } } := by
      rw [tradeApply_buy, if_neg hc, hbuy]
    have h2 : lookupH (setH st.holdings sym
        { h with quantity := h.quantity + q,
                 cost_basis := h.cost_basis + q * p,
                 average_price := (h.cost_basis + q * p) / (h.quantity + q),
                 current_price := p,
                 current_value := (h.quantity + q) * p,
                 last_updated := ts }) sym =
        some { h with quantity := h.quantity + q,
                      cost_basis := h.cost_basis + q * p,
                      average_price := (h.cost_basis + q * p) / (h.quantity + q),
                      current_price := p,
                      current_value := (h.quantity + q) * p,
                      last_updated := ts } := by
      rw [lookupH, findE_setH_self hfind]
      rfl
    rw [record_trade, h1]
    rcases update_prices_lookup now prices
        { st with cash := st.cash - q * p,
                  holdings := setH st.holdings sym
                    { h with quantity := h.quantity + q,
                             cost_basis := h.cost_basis + q * p,
                             average_price :=
                               (h.cost_basis + q * p) / (h.quantity + q),
                             current_price := p,
                             current_value := (h.quantity + q) * p,
                             last_updated := ts },
                  trades := st.trades ++
                    [{ timestamp := ts, symbol := sym, action := "buy",
                       quantity := q, price := p, value := q * p }] }
        sym h2 with ⟨h', hh', hq, hcb, hap⟩
    rw [recordSnapshot_holdings]
    exact ⟨h', hh', by rw [hcb], by rw [hap], by rw [hq]⟩
  · refine ⟨runA_fst, ?_, ?_, ?_, ?_⟩ <;>
      rw [stA_lit] <;> norm_num +decide [lookupH, findE, holdA]

/-- Witness for C3: the first-purchase conjunct applied at the Scenario A
inputs. -/
theorem C3_witness :
    ∃ h', lookupH (record_trade "BTC" "buy" (0.04 : ℚ) 50000 "t1" "t1" "d1"
            none st0).2.holdings "BTC" = some h' ∧
      h'.cost_basis = (0.04 : ℚ) * 50000 ∧ h'.average_price = 50000 ∧
      h'.quantity = (0.04 : ℚ) :=
  C3_buy_semantics.2.2.1 "BTC" (0.04 : ℚ) 50000 "t1" "t1" "d1" none st0
    (by norm_num [st0, initializePortfolio]) rfl

/-- Scenario C run: sell the full 0.04 BTC at 60000 on the Scenario B state,
with no price fetcher available for the post-trade refresh. -/
def runC : Bool × PortfolioState :=
  record_trade "BTC" "sell" (0.04 : ℚ) 60000 "t3" "t3" "d3" none stB

/-- C4: a sell recorded via `record_trade` fails (returning `false` and
leaving the state untouched) when the symbol is not held or the quantity
sold exceeds the held quantity; on success cash increases by
`quantity × price`, the holding's quantity drops by the quantity sold, the
holding is deleted from the map exactly when the remaining quantity is zero
and otherwise keeps its current value recomputed at the sale price; the
realized profit and loss is `(price − average_price) × quantity`; and in
particular Scenario C (sell the full 0.04 BTC at 60000 after Scenario B)
gives cash 10400, removes BTC from the map, with realized P&L 400. -/
theorem C4_sell_semantics :
    (∀ (sym : String) (q p : ℚ) (ts now sd : String)
        (prices : Option (List (String × ℚ))) (st : PortfolioState),
      lookupH st.holdings sym = none →
      record_trade sym "sell" q p ts now sd prices st = (false, st)) ∧
    (∀ (sym : String) (q p : ℚ) (ts now sd : String)
        (prices : Option (List (String × ℚ))) (st : PortfolioState)
        (h : Holding),
      lookupH st.holdings sym = some h → q > h.quantity →
      record_trade sym "sell" q p ts now sd prices st = (false, st)) ∧
    (∀ (sym : String) (q p : ℚ) (ts now sd : String)
        (prices : Option (List (String × ℚ))) (st : PortfolioState)
        (h : Holding),
      lookupH st.holdings sym = some h → ¬ q > h.quantity →
      (record_trade sym "sell" q p ts now sd prices st).1 = true ∧
      (record_trade sym "sell" q p ts now sd prices st).2.cash =
        st.cash + q * p) ∧
    (∀ (sym : String) (q p : ℚ) (ts now sd : String)
        (prices : Option (List (String × ℚ))) (st : PortfolioState)
        (h : Holding),
      (st.holdings.map Prod.fst).Nodup →
      lookupH st.holdings sym = some h → ¬ q > h.quantity →
      (lookupH (record_trade sym "sell" q p ts now sd prices st).2.holdings
          sym = none ↔ h.quantity - q = 0)) ∧
    (∀ (sym : String) (q p : ℚ) (ts now sd : String) (st : PortfolioState)
        (h : Holding),
      lookupH st.holdings sym = some h → ¬ q > h.quantity →
      0 < h.quantity - q →
      lookupH (record_trade sym "sell" q p ts now sd none st).2.holdings sym =
        some { h with quantity := h.quantity - q,
                      current_value := (h.quantity - q) * p,
                      last_updated := ts }) ∧
    (∀ (h : Holding) (p q : ℚ), realized_pl h p q = (p - h.average_price) * q) ∧
    (runC.1 = true ∧ runC.2.cash = 10400 ∧
     lookupH runC.2.holdings "BTC" = none ∧
     (lookupH stB.holdings "BTC").map
       (fun h => realized_pl h 60000 (0.04 : ℚ)) = some 400) := by
  refine ⟨?_, ?_, ?_, ?_, ?_, ?_, ?_⟩
  · intro sym q p ts now sd prices st hnone
    have h1 : tradeApply sym "sell" q p ts st = none := by
      rw [tradeApply_sell, hnone]
    rw [record_trade, h1]
  · intro sym q p ts now sd prices st h hsome hq
    have h1 : tradeApply sym "sell" q p ts st = none := by
      rw [tradeApply_sell, hsome]
      simp [hq]
    rw [record_trade, h1]
  · intro sym q p ts now sd prices st h hsome hq
    have h1 : tradeApply sym "sell" q p ts st =
        some { st with cash := st.cash + q * p,
                       holdings := sellUpdate st.holdings sym h q p ts } := by
      rw [tradeApply_sell, hsome]
      simp [hq]
    rw [record_trade, h1]
    exact ⟨rfl, by rw [recordSnapshot_cash, update_prices_cash]⟩
  · intro sym q p ts now sd prices st h hnd hsome hq
    have hfind : findE st.holdings sym = some (sym, h) := lookupH_some hsome
    have h1 : tradeApply sym "sell" q p ts st =
        some { st with cash := st.cash + q * p,
                       holdings := sellUpdate st.holdings sym h q p ts } := by
      rw [tradeApply_sell, hsome]
      simp [hq]
    rw [record_trade, h1, recordSnapshot_holdings]
    have hge : 0 ≤ h.quantity - q := by
      rw [not_lt] at hq
      linarith
    by_cases hz : h.quantity - q ≤ 0
    · have hzero : h.quantity - q = 0 := le_antisymm hz hge
      have hsell : sellUpdate st.holdings sym h q p ts = eraseH st.holdings sym := by
        rw [sellUpdate, if_pos hz]
      have hnone2 : lookupH (sellUpdate st.holdings sym h q p ts) sym = none := by
        rw [hsell, lookupH_none_iff]
        exact findE_eraseH_self hnd
      have := update_prices_lookup_none now prices
        { st with cash := st.cash + q * p,
                  holdings := sellUpdate st.holdings sym h q p ts,
                  trades := st.trades ++
                    [{ timestamp := ts, symbol := sym, action := "sell",
                       quantity := q, price := p, value := q * p }] }
        sym hnone2
      simp [this, hzero]
    · have hpos : 0 < h.quantity - q := lt_of_le_of_ne hge (fun hh => hz (le_of_eq hh.symm))
      have hsell : sellUpdate st.holdings sym h q p ts =
          setH st.holdings sym
            { h with quantity := h.quantity - q,
                     current_value := (h.quantity - q) * p,
                     last_updated := ts } := by
        rw [sellUpdate, if_neg hz]
      have hsome2 : lookupH (sellUpdate st.holdings sym h q p ts) sym =
          some { h with quantity := h.quantity - q,
                        current_value := (h.quantity - q) * p,
                        last_updated := ts } := by
        rw [hsell, lookupH, findE_setH_self hfind]
        rfl
      rcases update_prices_lookup now prices
        { st with cash := st.cash + q * p,
                  holdings := sellUpdate st.holdings sym h q p ts,
                  trades := st.trades ++
                    [{ timestamp := ts, symbol := sym, action := "sell",
                       quantity := q, price := p, value := q * p }] }
        sym hsome2 with ⟨h', hh', _, _, _⟩
      rw [hh']
      simp only [Option.some_ne_none, false_iff]
      intro hzero
      rw [hzero] at hpos
      exact lt_irrefl 0 hpos
  · intro sym q p ts now sd st h hsome hq hpos
    have hfind : findE st.holdings sym = some (sym, h) := lookupH_some hsome
    have hz : ¬ h.quantity - q ≤ 0 := not_le.mpr hpos
    have h1 : tradeApply sym "sell" q p ts st =
        some { st with cash := st.cash + q * p,
                       holdings := setH st.holdings sym
                         { h with quantity := h.quantity - q,
                                  current_value := (h.quantity - q) * p,
                                  last_updated := ts } } := by
      rw [tradeApply_sell, hsome]
      simp only [hq, if_neg, ite_false, sellUpdate, hz]
    rw [record_trade, h1, recordSnapshot_holdings]
    show lookupH (setH st.holdings sym _) sym = _
    rw [lookupH, findE_setH_self hfind]
    rfl
  · intro h p q
    rfl
  · have hc : runC = record_trade "BTC" "sell" (0.04 : ℚ) 60000 "t3" "t3" "d3"
        none stB := rfl
    rw [hc, stB_lit]
    norm_num +decide [record_trade, tradeApply, pyLower_buy, pyLower_sell,
      lookupH, findE, update_prices, recordSnapshot, sellUpdate, eraseH,
      realized_pl, holdB]

/-- Witness for C4: the successful-sell conjunct applied to a partial sell
of 0.01 BTC at 60000 on the Scenario A state. -/
theorem C4_witness :
    (record_trade "BTC" "sell" (0.01 : ℚ) 60000 "t3" "t3" "d3" none stA).1 =
      true ∧
    (record_trade "BTC" "sell" (0.01 : ℚ) 60000 "t3" "t3" "d3" none
        stA).2.cash = stA.cash + (0.01 : ℚ) * 60000 :=
  C4_sell_semantics.2.2.1 "BTC" (0.01 : ℚ) 60000 "t3" "t3" "d3" none stA holdA
    (by rw [stA_lit]; norm_num +decide [lookupH, findE])
    (by rw [holdA]; norm_num)

theorem lookupPrice_ne_nil {ps : List (String × ℚ)} {s : String} {pr : ℚ}
    (h : lookupPrice ps s = some pr) : ps.isEmpty = false := by
  cases ps with
  | nil => simp [lookupPrice] at h
  | cons e t => rfl

theorem update_prices_lookup_priced (now : String) (ps : List (String × ℚ))
    (st : PortfolioState) (s : String) {h : Holding} {pr : ℚ}
    (hl : lookupH st.holdings s = some h) (hp : lookupPrice ps s = some pr)
    (hpr : pr ≠ 0) :
    ∃ h', lookupH (update_prices now (some ps) st).2.holdings s = some h' ∧
      h'.profit_loss = h.quantity * pr - h.cost_basis ∧
      h'.current_value = h.quantity * pr ∧ h'.current_price = pr := by
  have hne : ps.isEmpty = false := lookupPrice_ne_nil hp
  have hfind : findE st.holdings s = some (s, h) := lookupH_some hl
  have hup : upEntry now ps (s, h) = (s, updateHolding now pr h) := by
    simp only [upEntry, hp, if_neg hpr, ite_false]
  simp only [update_prices, hne, Bool.false_eq_true, if_neg, ite_false]
  unfold calculate_allocations
  rw [foldl_upStep_snd]
  simp only [List.nil_append]
  split
  · refine ⟨updateHolding now pr h, ?_, rfl, rfl, rfl⟩
    rw [lookupH, findE_map (upEntry now ps) (upEntry_fst now ps), hfind]
    simp [hup]
  · refine ⟨(allocEntry ((st.holdings.foldl (upStep now ps) (st.cash, [])).1)
      (s, updateHolding now pr h)).2, ?_, rfl, rfl, rfl⟩
    show lookupH
      (List.map (allocEntry ((st.holdings.foldl (upStep now ps)
          (st.cash, [])).1))
        (List.map (upEntry now ps) st.holdings)) s = _
    rw [lookupH, findE_map (allocEntry _) (allocEntry_fst _),
      findE_map (upEntry now ps) (upEntry_fst now ps), hfind]
    simp [hup]

/-- C10: a partial sell (0 < quantity sold < held quantity) leaves the
holding's `cost_basis` and `average_price` completely unchanged — the cost
basis is not reduced by the sold portion — changing only `quantity`,
`current_value` and `last_updated`; a subsequent price refresh therefore
computes the unrealized profit/loss against the full original cost basis. -/
theorem C10_partial_sell_frame :
    (∀ (sym : String) (q p : ℚ) (ts now sd : String)
        (prices : Option (List (String × ℚ))) (st : PortfolioState)
        (h : Holding),
      lookupH st.holdings sym = some h → 0 < q → q < h.quantity →
      ∃ h', lookupH (record_trade sym "sell" q p ts now sd prices
              st).2.holdings sym = some h' ∧
        h'.cost_basis = h.cost_basis ∧ h'.average_price = h.average_price ∧
        h'.quantity = h.quantity - q) ∧
    (∀ (sym : String) (q p : ℚ) (ts now sd : String) (st : PortfolioState)
        (h : Holding),
      lookupH st.holdings sym = some h → 0 < q → q < h.quantity →
      lookupH (record_trade sym "sell" q p ts now sd none st).2.holdings sym =
        some { h with quantity := h.quantity - q,
                      current_value := (h.quantity - q) * p,
                      last_updated := ts }) ∧
    (∀ (sym : String) (q p pr : ℚ) (ts now sd now2 : String)
        (st : PortfolioState) (h : Holding) (ps : List (String × ℚ)),
      lookupH st.holdings sym = some h → 0 < q → q < h.quantity →
      lookupPrice ps sym = some pr → pr ≠ 0 →
      ∃ h'', lookupH (update_prices now2 (some ps)
          (record_trade sym "sell" q p ts now sd none st).2).2.holdings sym =
            some h'' ∧
        h''.profit_loss = (h.quantity - q) * pr - h.cost_basis) := by
  have key : ∀ (sym : String) (q p : ℚ) (ts now sd : String)
      (st : PortfolioState) (h : Holding),
      lookupH st.holdings sym = some h → 0 < q → q < h.quantity →
      lookupH (record_trade sym "sell" q p ts now sd none st).2.holdings sym =
        some { h with quantity := h.quantity - q,
                      current_value := (h.quantity - q) * p,
                      last_updated := ts } := by
    intro sym q p ts now sd st h hsome hq0 hlt
    have hfind : findE st.holdings sym = some (sym, h) := lookupH_some hsome
    have hq : ¬ q > h.quantity := not_lt.mpr (le_of_lt hlt)
    have hz : ¬ h.quantity - q ≤ 0 := by
      rw [not_le]
      linarith
    have h1 : tradeApply sym "sell" q p ts st =
        some { st with cash := st.cash + q * p,
                       holdings := setH st.holdings sym
                         { h with quantity := h.quantity - q,
                                  current_value := (h.quantity - q) * p,
                                  last_updated := ts } } := by
      rw [tradeApply_sell, hsome]
      simp only [hq, if_neg, ite_false, sellUpdate, hz]
    rw [record_trade, h1, recordSnapshot_holdings]
    show lookupH (setH st.holdings sym _) sym = _
    rw [lookupH, findE_setH_self hfind]
    rfl
  refine ⟨?_, key, ?_⟩
  · intro sym q p ts now sd prices st h hsome hq0 hlt
    have hfind : findE st.holdings sym = some (sym, h) := lookupH_some hsome
    have hq : ¬ q > h.quantity := not_lt.mpr (le_of_lt hlt)
    have hz : ¬ h.quantity - q ≤ 0 := by
      rw [not_le]
      linarith
    have h1 : tradeApply sym "sell" q p ts st =
        some { st with cash := st.cash + q * p,
                       holdings := setH st.holdings sym
                         { h with quantity := h.quantity - q,
                                  current_value := (h.quantity - q) * p,
                                  last_updated := ts } } := by
      rw [tradeApply_sell, hsome]
      simp only [hq, if_neg, ite_false, sellUpdate, hz]
    have h2 : lookupH (setH st.holdings sym
        { h with quantity := h.quantity - q,
                 current_value := (h.quantity - q) * p,
                 last_updated := ts }) sym =
        some { h with quantity := h.quantity - q,
                      current_value := (h.quantity - q) * p,
                      last_updated := ts } := by
      rw [lookupH, findE_setH_self hfind]
      rfl
    rw [record_trade, h1, recordSnapshot_holdings]
    rcases update_prices_lookup now prices
        { st with cash := st.cash + q * p,
                  holdings := setH st.holdings sym
                    { h with quantity := h.quantity - q,
                             current_value := (h.quantity - q) * p,
                             last_updated := ts },
                  trades := st.trades ++
                    [{ timestamp := ts, symbol := sym, action := "sell",
                       quantity := q, price := p, value := q * p }] }
        sym h2 with ⟨h', hh', hq', hcb, hap⟩
    exact ⟨h', hh', by rw [hcb], by rw [hap], by rw [hq']⟩
  · intro sym q p pr ts now sd now2 st h ps hsome hq0 hlt hp hpr
    have hmid := key sym q p ts now sd st h hsome hq0 hlt
    rcases update_prices_lookup_priced now2 ps
        (record_trade sym "sell" q p ts now sd none st).2 sym hmid hp hpr with
      ⟨h'', hh'', hpl, _, _⟩
    exact ⟨h'', hh'', by rw [hpl]⟩

/-- Witness for C10: sell 0.01 of the 0.04 BTC held in the Scenario A state
at 60000; the cost basis and average price survive unchanged and a
subsequent refresh at price 60000 marks P&L against the full 2000 basis. -/
theorem C10_witness :
    (lookupH (record_trade "BTC" "sell" (0.01 : ℚ) 60000 "t3" "t3" "d3" none
        stA).2.holdings "BTC" =
      some { holdA with quantity := holdA.quantity - (0.01 : ℚ),
                        current_value := (holdA.quantity - (0.01 : ℚ)) * 60000,
                        last_updated := "t3" }) ∧
    (∃ h'', lookupH (update_prices "t4" (some [("BTC", (60000 : ℚ))])
        (record_trade "BTC" "sell" (0.01 : ℚ) 60000 "t3" "t3" "d3" none
          stA).2).2.holdings "BTC" = some h'' ∧
      h''.profit_loss = (holdA.quantity - (0.01 : ℚ)) * 60000 - holdA.cost_basis) :=
  ⟨C10_partial_sell_frame.2.1 "BTC" (0.01 : ℚ) 60000 "t3" "t3" "d3" stA holdA
      (by rw [stA_lit]; norm_num +decide [lookupH, findE])
      (by norm_num)
      (by rw [holdA]; norm_num),
   C10_partial_sell_frame.2.2 "BTC" (0.01 : ℚ) 60000 60000 "t3" "t3" "d3" "t4"
      stA holdA [("BTC", (60000 : ℚ))]
      (by rw [stA_lit]; norm_num +decide [lookupH, findE])
      (by norm_num)
      (by rw [holdA]; norm_num)
      (by norm_num +decide [lookupPrice])
      (by norm_num)⟩

/-- Counterexample to C1 as stated: on the Scenario A state (cash 8000, one
BTC holding with stale current_value 2000), a successful `update_prices`
whose snapshot has no BTC entry (only ETH) skips the holding — keeping its
stale current_value — but also leaves it out of the recomputed total_value,
so `total_value = 8000 ≠ 8000 + 2000 = cash + Σ current_value`. -/
theorem C1_counterexample :
    (update_prices "t2" (some [("ETH", (100 : ℚ))]) stA).1 = true ∧
    (update_prices "t2" (some [("ETH", (100 : ℚ))]) stA).2.total_value = 8000 ∧
    (update_prices "t2" (some [("ETH", (100 : ℚ))]) stA).2.cash +
      sumCV (update_prices "t2" (some [("ETH", (100 : ℚ))]) stA).2.holdings =
      10000 ∧
    (update_prices "t2" (some [("ETH", (100 : ℚ))]) stA).2.total_value ≠
      (update_prices "t2" (some [("ETH", (100 : ℚ))]) stA).2.cash +
        sumCV (update_prices "t2" (some [("ETH", (100 : ℚ))]) stA).2.holdings := by
  rw [stA_lit]
  norm_num +decide [update_prices, upStep, updateHolding, lookupPrice,
    calculate_allocations, allocEntry, sumCV, holdA]

/-- C1 amended: after every successful `update_prices` in which every held
symbol has a nonzero price entry in the fetched snapshot, the invariant
`total_value = cash + Σ holdings.current_value` holds exactly (the embedding
computes in ℚ, so "within floating-point epsilon" becomes exact equality);
likewise after every successful `record_trade` whose post-trade refresh runs
on a nonempty snapshot covering every held symbol.  (When a held symbol is
skipped its stale current_value is excluded from total_value, and when the
refresh cannot run the stale total_value persists — the counterexample.) -/
theorem C1_amended :
    (∀ (now : String) (ps : List (String × ℚ)) (st : PortfolioState),
      ps.isEmpty = false → covered ps st.holdings →
      (update_prices now (some ps) st).1 = true ∧
      (update_prices now (some ps) st).2.total_value =
        (update_prices now (some ps) st).2.cash +
          sumCV (update_prices now (some ps) st).2.holdings) ∧
    (∀ (sym act : String) (q p : ℚ) (ts now sd : String)
        (ps : List (String × ℚ)) (st : PortfolioState),
      ps.isEmpty = false →
      (record_trade sym act q p ts now sd (some ps) st).1 = true →
      covered ps (record_trade sym act q p ts now sd (some ps) st).2.holdings →
      (record_trade sym act q p ts now sd (some ps) st).2.total_value =
        (record_trade sym act q p ts now sd (some ps) st).2.cash +
          sumCV (record_trade sym act q p ts now sd (some ps) st).2.holdings) := by
  constructor
  · intro now ps st hne hcov
    exact update_prices_covered_inv now ps st hne hcov
  · intro sym act q p ts now sd ps st hne hsucc hcov
    rcases record_trade_success hsucc with ⟨st1, _, heq⟩
    rw [heq] at hcov ⊢
    rw [recordSnapshot_holdings] at hcov
    rw [recordSnapshot_total, recordSnapshot_cash, recordSnapshot_holdings]
    have hcov2 := covered_update_prices_back now ps _ hne hcov
    exact (update_prices_covered_inv now ps _ hne hcov2).2

/-- Witness for C1's amended theorem: the Scenario B refresh (every held
symbol priced) restores the invariant, and a buy whose post-trade refresh
covers the held symbol satisfies it as well. -/
theorem C1_amended_witness :
    ((update_prices "t2" (some [("BTC", (60000 : ℚ))]) stA).1 = true ∧
     (update_prices "t2" (some [("BTC", (60000 : ℚ))]) stA).2.total_value =
       (update_prices "t2" (some [("BTC", (60000 : ℚ))]) stA).2.cash +
         sumCV (update_prices "t2" (some [("BTC", (60000 : ℚ))])
           stA).2.holdings) ∧
    (record_trade "BTC" "buy" (0.04 : ℚ) 50000 "t1" "t1" "d1"
        (some [("BTC", (50000 : ℚ))]) st0).2.total_value =
      (record_trade "BTC" "buy" (0.04 : ℚ) 50000 "t1" "t1" "d1"
          (some [("BTC", (50000 : ℚ))]) st0).2.cash +
        sumCV (record_trade "BTC" "buy" (0.04 : ℚ) 50000 "t1" "t1" "d1"
            (some [("BTC", (50000 : ℚ))]) st0).2.holdings :=
  ⟨C1_amended.1 "t2" [("BTC", (60000 : ℚ))] stA rfl
      (by rw [stA_lit]
          norm_num +decide [covered, lookupPrice, holdA]),
   C1_amended.2 "BTC" "buy" (0.04 : ℚ) 50000 "t1" "t1" "d1"
      [("BTC", (50000 : ℚ))] st0 rfl
      (by norm_num +decide [record_trade, tradeApply, pyLower_buy, buyUpdate,
            mkHolding, lookupH, findE, update_prices, recordSnapshot, st0,
            initializePortfolio, upStep, updateHolding, lookupPrice,
            calculate_allocations, allocEntry])
      (by norm_num +decide [covered, record_trade, tradeApply, pyLower_buy,
            buyUpdate, mkHolding, lookupH, findE, update_prices,
            recordSnapshot, st0, initializePortfolio, upStep, updateHolding,
            lookupPrice, calculate_allocations, allocEntry])⟩

/-- Counterexample to C6 as stated: `record_trade` does not validate the
sign of `quantity`, so from the freshly initialized portfolio a "buy" of
quantity −1 at price 50000 has trade value −50000 ≤ cash, passes the funds
check, succeeds, and leaves a reachable holding with quantity −1 < 0. -/
theorem C6_counterexample :
    (record_trade "BTC" "buy" (-1 : ℚ) 50000 "t1" "t1" "d1" none st0).1 =
      true ∧
    (lookupH (record_trade "BTC" "buy" (-1 : ℚ) 50000 "t1" "t1" "d1" none
        st0).2.holdings "BTC").map Holding.quantity = some (-1) ∧
    ∃ h, lookupH (record_trade "BTC" "buy" (-1 : ℚ) 50000 "t1" "t1" "d1" none
        st0).2.holdings "BTC" = some h ∧ h.quantity < 0 := by
  refine ⟨?_, ?_, mkHolding "BTC" (-1) 50000 ((-1 : ℚ) * 50000) "t1", ?_, ?_⟩ <;>
    norm_num +decide [record_trade, tradeApply, pyLower_buy, buyUpdate,
      mkHolding, lookupH, findE, update_prices, recordSnapshot, st0,
      initializePortfolio]

/-- The nonnegativity invariant of C6: cash and all held quantities are
nonnegative. -/
def NonnegState (st : PortfolioState) : Prop :=
  0 ≤ st.cash ∧ ∀ e ∈ st.holdings, 0 ≤ e.2.quantity

/-- States reachable from an initialized portfolio (nonnegative configured
capital) by `record_trade` calls with nonnegative quantity and price and by
arbitrary `update_prices` calls. -/
inductive Reachable : PortfolioState → Prop where
  | init (c : ℚ) (hc : 0 ≤ c) (d : String) :
      Reachable (initializePortfolio c d)
  | trade (sym act : String) (q p : ℚ) (ts now sd : String)
      (prices : Option (List (String × ℚ))) (st : PortfolioState)
      (hq : 0 ≤ q) (hp : 0 ≤ p) (hst : Reachable st) :
      Reachable (record_trade sym act q p ts now sd prices st).2
  | update (now : String) (prices : Option (List (String × ℚ)))
      (st : PortfolioState) (hst : Reachable st) :
      Reachable (update_prices now prices st).2

theorem nonneg_update_prices {now : String}
    {prices : Option (List (String × ℚ))} {st : PortfolioState}
    (hinv : NonnegState st) : NonnegState (update_prices now prices st).2 := by
  constructor
  · rw [update_prices_cash]
    exact hinv.1
  · rcases prices with _ | ps
    · exact hinv.2
    · by_cases hne : ps.isEmpty
      · simp only [update_prices, hne, if_pos]
        exact hinv.2
      · rcases update_prices_holdings_eq now ps st
          (Bool.not_eq_true _ ▸ hne) with ⟨g, _, hg2, hg3⟩
        rw [hg3]
        intro e he
        rcases List.mem_map.mp he with ⟨e0, he0, hee⟩
        rw [← hee, (hg2 e0).1]
        exact hinv.2 e0 he0

theorem nonneg_tradeApply {sym act : String} {q p : ℚ} {ts : String}
    {st st1 : PortfolioState} (hq : 0 ≤ q) (hp : 0 ≤ p)
    (hinv : NonnegState st)
    (ht : tradeApply sym act q p ts st = some st1) : NonnegState st1 := by
  by_cases hb : pyLower act = "buy"
  · rw [tradeApply, if_pos hb] at ht
    by_cases hc : q * p > st.cash
    · rw [if_pos hc] at ht
      simp at ht
    · rw [if_neg hc] at ht
      have hst1 : st1 =
          { st with cash := st.cash - q * p,
                    holdings := buyUpdate st.holdings sym q p (q * p) ts } :=
        (Option.some_inj.mp ht).symm
      rw [hst1]
      constructor
      · rw [not_lt] at hc
        simp only []
        linarith
      · intro e he
        simp only [] at he
        rcases hl : lookupH st.holdings sym with _ | h
        · rw [buyUpdate, hl] at he
          rcases List.mem_append.mp he with h1 | h1
          · exact hinv.2 e h1
          · rcases List.mem_singleton.mp h1 with rfl
            simpa [mkHolding] using hq
        · rw [buyUpdate, hl] at he
          rcases mem_setH he with h1 | h1
          · exact hinv.2 e h1
          · have hhq : 0 ≤ h.quantity :=
              hinv.2 (sym, h) (findE_mem (lookupH_some hl))
            rcases h1 with rfl
            simpa using add_nonneg hhq hq
  · by_cases hsl : pyLower act = "sell"
    · rw [tradeApply, if_neg hb, if_pos hsl] at ht
      rcases hl : lookupH st.holdings sym with _ | h
      · rw [hl] at ht
        simp at ht
      · simp only [hl] at ht
        by_cases hqq : q > h.quantity
        · rw [if_pos hqq] at ht
          simp at ht
        · rw [if_neg hqq] at ht
          have hst1 : st1 =
              { st with cash := st.cash + q * p,
                        holdings := sellUpdate st.holdings sym h q p ts } :=
            (Option.some_inj.mp ht).symm
          rw [hst1]
          constructor
          · simp only []
            have := mul_nonneg hq hp
            linarith [hinv.1]
          · intro e he
            simp only [] at he
            by_cases hz : h.quantity - q ≤ 0
            · rw [sellUpdate, if_pos hz] at he
              exact hinv.2 e (mem_eraseH he)
            · rw [sellUpdate, if_neg hz] at he
              rcases mem_setH he with h1 | h1
              · exact hinv.2 e h1
              · rcases h1 with rfl
                rw [not_le] at hz
                simpa using le_of_lt hz
    · rw [tradeApply, if_neg hb, if_neg hsl] at ht
      simp at ht

theorem nonneg_record_trade {sym act : String} {q p : ℚ}
    {ts now sd : String} {prices : Option (List (String × ℚ))}
    {st : PortfolioState} (hq : 0 ≤ q) (hp : 0 ≤ p) (hinv : NonnegState st) :
    NonnegState (record_trade sym act q p ts now sd prices st).2 := by
  rcases ht : tradeApply sym act q p ts st with _ | st1
  · rw [record_trade, ht]
    exact hinv
  · rw [record_trade, ht]
    have h1 : NonnegState st1 := nonneg_tradeApply hq hp hinv ht
    have h2 : NonnegState { st1 with trades := st1.trades ++
        [{ timestamp := ts, symbol := sym, action := act, quantity := q,
           price := p, value := q * p }] } := ⟨h1.1, h1.2⟩
    have h3 := @nonneg_update_prices now prices _ h2
    exact ⟨h3.1, h3.2⟩

/-- C6 amended: along every sequence of `record_trade` and `update_prices`
calls from an initialized portfolio whose configured capital is nonnegative,
cash stays ≥ 0 and every held quantity stays ≥ 0 — provided every
`record_trade` call passes a nonnegative quantity and price.  (The code does
not validate signs, so negative trade parameters break the invariant — the
counterexample.) -/
theorem C6_amended (st : PortfolioState) (h : Reachable st) :
    0 ≤ st.cash ∧ ∀ e ∈ st.holdings, 0 ≤ e.2.quantity := by
  induction h with
  | init c hc d => exact ⟨hc, by intro e he; simp [initializePortfolio] at he⟩
  | trade sym act q p ts now sd prices st hq hp hst ih =>
    exact nonneg_record_trade hq hp ih
  | update now prices st hst ih =>
    exact nonneg_update_prices ih

/-- Witness for C6's amended theorem: the state reached by the Scenario A
buy from the initialized portfolio satisfies the invariant. -/
theorem C6_amended_witness :
    0 ≤ (record_trade "BTC" "buy" (0.04 : ℚ) 50000 "t1" "t1" "d1" none
      st0).2.cash ∧
    ∀ e ∈ (record_trade "BTC" "buy" (0.04 : ℚ) 50000 "t1" "t1" "d1" none
      st0).2.holdings, 0 ≤ e.2.quantity :=
  C6_amended _ (Reachable.trade "BTC" "buy" (0.04 : ℚ) 50000 "t1" "t1" "d1"
    none st0 (by norm_num) (by norm_num)
    (Reachable.init 10000 (by norm_num) "d0"))

/-!
Order-manager fixtures and claim theorems.
-/

deriving instance DecidableEq for Except

/-- A one-asset configuration: BTC traded on kucoin. -/
def assets0 : List Asset := [{ symbol := "BTC", exchange := "kucoin" }]

/-- A well-formed market buy order for BTC. -/
def order0 : Order :=
  { symbol := some "BTC", otype := some "market", side := some "buy",
    amount := some (.num 100), price := none }

/-- A live-mode manager with confirmation disabled. -/
def cfgLive : OMConfig :=
  { trade_confirmation := false, test_mode := false, assets := assets0 }

/-- Counterexample to C2 as stated: in live mode (test_mode false), when the
exchange dispatch raises, `submit_order` returns — and persists — the dummy
adapter's simulated fill with status `"success"` and a `dummy-order-` id,
instead of a result with status `"error"` carrying the failure reason. -/
theorem C2_counterexample :
    submit_order cfgLive (.raised "connection refused") "1700000000" order0
        (some false) =
      .ok { result := .placed (place_dummy_kucoin_order "1700000000" order0),
            placeCalled := true,
            savedOrder := some (place_dummy_kucoin_order "1700000000" order0) } ∧
    (place_dummy_kucoin_order "1700000000" order0).status = "success" ∧
    (place_dummy_kucoin_order "1700000000" order0).order_id =
      "dummy-order-1700000000" := by
  refine ⟨?_, rfl, rfl⟩
  decide

/-- C2 amended: whenever the live KuCoin dispatch fails,
`_place_kucoin_order` catches the failure and falls back to the dummy
adapter, so `submit_order` returns (and persists) a simulated fill with
status `"success"`; the underlying failure reason is never surfaced as a
status-`"error"` result. -/
theorem C2_amended :
    (∀ (msg nowTs : String) (o : Order),
      place_kucoin_order false (.raised msg) nowTs o =
        place_dummy_kucoin_order nowTs o ∧
      (place_kucoin_order false (.raised msg) nowTs o).status = "success") ∧
    (∀ (cfg : OMConfig) (msg nowTs : String) (o : Order)
        (confirm : Option Bool) (v : ValidationResult) (sym : String)
        (a : Asset),
      cfg.test_mode = false →
      validate_order cfg.assets o = .ok v → v.valid = true →
      confirm.getD cfg.trade_confirmation = false →
      o.symbol = some sym → get_asset_info cfg.assets sym = some a →
      pyLower a.exchange = "kucoin" →
      submit_order cfg (.raised msg) nowTs o confirm =
        .ok { result := .placed (place_dummy_kucoin_order nowTs o),
              placeCalled := true,
              savedOrder := some (place_dummy_kucoin_order nowTs o) }) := by
  constructor
  · intro msg nowTs o
    exact ⟨rfl, rfl⟩
  · intro cfg msg nowTs o confirm v sym a htm hv hvalid hconf hsym ha hk
    rcases confirm with _ | c
    · simp only [Option.getD_none] at hconf
      simp [submit_order, hv, hvalid, hconf, hsym, ha, hk,
        place_kucoin_order, htm]
    · simp only [Option.getD_some] at hconf
      simp [submit_order, hv, hvalid, hconf, hsym, ha, hk,
        place_kucoin_order, htm]

/-- Witness for C2's amended theorem at the live fixture. -/
theorem C2_amended_witness :
    submit_order cfgLive (.raised "timeout") "99" order0 (some false) =
      .ok { result := .placed (place_dummy_kucoin_order "99" order0),
            placeCalled := true,
            savedOrder := some (place_dummy_kucoin_order "99" order0) } :=
  C2_amended.2 cfgLive "timeout" "99" order0 (some false)
    { valid := true, errors := [] } "BTC"
    { symbol := "BTC", exchange := "kucoin" }
    rfl (by decide) rfl rfl rfl (by decide) (by decide)

/-- C7: when an order passes validation and the effective confirmation
requirement (the `confirm` override when supplied, else the global
`trade_confirmation` setting) is true, `submit_order` returns the
`pending_confirmation` result carrying the order, `_place_kucoin_order` is
never invoked (the exchange is not contacted), and nothing is persisted to
the order store. -/
theorem C7_confirmation_gate (cfg : OMConfig) (gw : GatewayOutcome)
    (nowTs : String) (o : Order) (confirm : Option Bool)
    (v : ValidationResult) (hv : validate_order cfg.assets o = .ok v)
    (hvalid : v.valid = true)
    (hc : confirm.getD cfg.trade_confirmation = true) :
    submit_order cfg gw nowTs o confirm =
      .ok { result := .pending_confirmation o
              "Order is valid but requires confirmation"
            placeCalled := false, savedOrder := none } := by
  rcases confirm with _ | c
  · simp only [Option.getD_none] at hc
    simp [submit_order, hv, hvalid, hc]
  · simp only [Option.getD_some] at hc
    simp [submit_order, hv, hvalid, hc]

/-- Witness for C7: a valid market buy submitted with `confirm = true` stays
pending, uncontacted and unpersisted, whatever the gateway would do. -/
theorem C7_witness :
    submit_order cfgLive (.ok "live-id") "t" order0 (some true) =
      .ok { result := .pending_confirmation order0
              "Order is valid but requires confirmation"
            placeCalled := false, savedOrder := none } :=
  C7_confirmation_gate cfgLive (.ok "live-id") "t" order0 (some true)
    { valid := true, errors := [] } (by decide) rfl rfl

/-- An order whose symbol is unresolvable and whose type and side are both
invalid. -/
def order8 : Order :=
  { symbol := some "XYZ", otype := some "foo", side := some "hold",
    amount := some (.num 5), price := none }

/-- Counterexample to C8 as stated: with all required fields present, an
unresolvable symbol also short-circuits — the validator returns only the
asset-not-found error even though the type check (`"foo"`) and side check
(`"hold"`) would both fail, so their errors are not accumulated. -/
theorem C8_counterexample :
    validate_order assets0 order8 =
      .ok { valid := false, errors := ["Asset not found: XYZ"] } ∧
    order8.otype = some "foo" ∧ order8.side = some "hold" ∧
    ("foo" ≠ "market" ∧ "foo" ≠ "limit") ∧
    ("hold" ≠ "buy" ∧ "hold" ≠ "sell") ∧
    "Invalid order type: foo" ∉ ["Asset not found: XYZ"] := by
  decide

theorem missingFieldErrors_not_empty {o : Order}
    (h : o.symbol.isNone ∨ o.otype.isNone ∨ o.side.isNone ∨ o.amount.isNone) :
    (missingFieldErrors o).isEmpty = false := by
  rcases h with h | h | h | h <;>
    rcases o with ⟨s, t, sd, a, p⟩ <;>
    simp only [Option.isNone_iff_eq_none] at h <;>
    subst h <;>
    simp [missingFieldErrors] <;>
    split <;> simp <;> split <;> simp <;> split <;> simp

/-- The number of error strings the amount check contributes for a given
amount value (when it does not raise): one when `float(...)` raises
`ValueError` or the value is non-positive, zero otherwise. -/
def amountErrCount (amt : PyVal) : Nat :=
  match pyFloat amt with
  | .ok v => if v ≤ 0 then 1 else 0
  | .error _ => 1

/-- The number of error strings the limit-price check contributes: zero for
non-limit orders; for limit orders, one when the price is missing,
non-numeric or non-positive. -/
def priceErrCount (ty : String) (pr : Option PyVal) : Nat :=
  if ty = "limit" then
    match pr with
    | none => 1
    | some pv =>
      match pyFloat pv with
      | .ok v => if v ≤ 0 then 1 else 0
      | .error _ => 1
  else 0

theorem amountErrors_length {amt : PyVal} {amtE : List String}
    (h : amountErrors amt = .ok amtE) : amtE.length = amountErrCount amt := by
  rcases amt with q | q | s | _ | _ <;>
    simp only [amountErrors, pyFloat, Except.ok.injEq, amountErrCount] at h ⊢
  · rcases h with rfl
    split <;> simp
  · rcases h with rfl
    split <;> simp
  · rcases h with rfl
    simp
  · simp at h
  · simp at h

theorem priceErrors_length {ty : String} {pr : Option PyVal}
    {prE : List String} (h : priceErrors ty pr = .ok prE) :
    prE.length = priceErrCount ty pr := by
  by_cases hty : ty = "limit"
  · unfold priceErrors at h
    rw [if_pos hty] at h
    unfold priceErrCount
    rw [if_pos hty]
    rcases pr with _ | pv
    · simp only [Except.ok.injEq] at h
      rcases h with rfl
      simp
    · rcases pv with q | q | s | _ | _ <;>
        simp only [pyFloat, Except.ok.injEq] at h ⊢
      · rcases h with rfl
        split <;> simp
      · rcases h with rfl
        split <;> simp
      · rcases h with rfl
        simp
      · simp at h
      · simp at h
  · unfold priceErrors at h
    rw [if_neg hty] at h
    unfold priceErrCount
    rw [if_neg hty]
    simp only [Except.ok.injEq] at h
    rcases h with rfl
    simp

/-- C8 amended: a missing required field short-circuits validation, and so
does an unresolvable symbol (returning only the asset-not-found error);
once the symbol resolves, the type, side, amount and limit-price checks all
accumulate — the returned errors list has exactly one entry per failing
check — and `valid` holds exactly when that list is empty. -/
theorem C8_amended :
    (∀ (assets : List Asset) (o : Order),
      (o.symbol.isNone ∨ o.otype.isNone ∨ o.side.isNone ∨ o.amount.isNone) →
      validate_order assets o =
        .ok { valid := false, errors := missingFieldErrors o }) ∧
    (∀ (assets : List Asset) (sym ty sd : String) (amt : PyVal)
        (pr : Option PyVal),
      get_asset_info assets sym = none →
      validate_order assets
          { symbol := some sym, otype := some ty, side := some sd,
            amount := some amt, price := pr } =
        .ok { valid := false, errors := ["Asset not found: " ++ sym] }) ∧
    (∀ (assets : List Asset) (sym ty sd : String) (amt : PyVal)
        (pr : Option PyVal) (a : Asset) (r : ValidationResult),
      get_asset_info assets sym = some a →
      validate_order assets
          { symbol := some sym, otype := some ty, side := some sd,
            amount := some amt, price := pr } = .ok r →
      r.errors.length =
        (if ty = "market" ∨ ty = "limit" then 0 else 1) +
        (if sd = "buy" ∨ sd = "sell" then 0 else 1) +
        amountErrCount amt + priceErrCount ty pr ∧
      (r.valid = true ↔ r.errors = [])) := by
  refine ⟨?_, ?_, ?_⟩
  · intro assets o h
    rw [validate_order]
    simp only [missingFieldErrors_not_empty h]
    rfl
  · intro assets sym ty sd amt pr hnone
    rw [validate_order]
    simp [missingFieldErrors, hnone]
  · intro assets sym ty sd amt pr a r ha hv
    rw [validate_order] at hv
    simp only [missingFieldErrors, Option.isNone_some, Bool.false_eq_true,
      ite_false, if_neg, List.append_nil, List.nil_append, List.isEmpty_nil,
      Bool.true_eq_false, ha] at hv
    rcases ham : amountErrors amt with e | amtE
    · rw [ham] at hv
      simp at hv
    · rw [ham] at hv
      rcases hpre : priceErrors ty pr with e | prE
      · rw [hpre] at hv
        simp at hv
      · rw [hpre] at hv
        simp only [Except.ok.injEq] at hv
        subst hv
        constructor
        · simp only [List.length_append, amountErrors_length ham,
            priceErrors_length hpre]
          by_cases h1 : (ty = "market" ∨ ty = "limit") <;>
            by_cases h2 : (sd = "buy" ∨ sd = "sell") <;>
              simp [h1, h2]
        · show (_ : List String).isEmpty = true ↔ _
          rw [List.isEmpty_iff]

/-- Witness for C8's amended theorem: a resolvable symbol with an invalid
type, an invalid side and a non-positive amount accumulates exactly three
errors — one per failing check. -/
theorem C8_witness :
    ({ valid := false,
       errors := ["Invalid order type: foo", "Invalid order side: hold",
                  "Invalid amount: must be greater than 0"] } :
      ValidationResult).errors.length =
      (if ("foo" = "market" ∨ "foo" = "limit") then 0 else 1) +
      (if ("hold" = "buy" ∨ "hold" = "sell") then 0 else 1) +
      amountErrCount (.num (-5)) + priceErrCount "foo" none ∧
    (({ valid := false,
        errors := ["Invalid order type: foo", "Invalid order side: hold",
                   "Invalid amount: must be greater than 0"] } :
       ValidationResult).valid = true ↔
     ({ valid := false,
        errors := ["Invalid order type: foo", "Invalid order side: hold",
                   "Invalid amount: must be greater than 0"] } :
       ValidationResult).errors = []) :=
  C8_amended.2.2 assets0 "BTC" "foo" "hold" (.num (-5)) none
    { symbol := "BTC", exchange := "kucoin" }
    { valid := false,
      errors := ["Invalid order type: foo", "Invalid order side: hold",
                 "Invalid amount: must be greater than 0"] }
    (by decide) (by decide)

/-- A well-formed market buy order whose amount is Python `None`. -/
def order9 : Order :=
  { symbol := some "BTC", otype := some "market", side := some "buy",
    amount := some .pyNone, price := none }

/-- C9: the claim is that validation always returns a structured
`{valid, errors}` result and never raises; but the source's
`try/except ValueError` around `float(order['amount'])` does not catch
`TypeError`, so an amount that is neither a number nor a string (Python
`None` here) makes `_validate_order` — and `submit_order`, which calls it
unguarded — raise `TypeError` to the caller.  A non-numeric *string* amount,
by contrast, is caught and reported as a structured error, confirming the
intended error path. -/
theorem C9_typeerror_escapes :
    validate_order assets0 order9 = .error .typeError ∧
    submit_order { trade_confirmation := true, test_mode := false,
                   assets := assets0 } (.ok "x") "t" order9 none =
      .error .typeError ∧
    validate_order assets0
        { symbol := some "BTC", otype := some "market", side := some "buy",
          amount := some (.badStr "abc"), price := none } =
      .ok { valid := false, errors := ["Invalid amount: must be a number"] } := by
  refine ⟨by decide, by decide, by decide⟩

end AIPortfolio
